import Mathlib

/-!
Verification development for `timecopy.py`, a Time Machine backup-volume
replicator.  The script is shallowly embedded below: paths are lists of
characters, the source tree is a finite inductive tree (the result of
`os.listdir`/`os.lstat` on the source volume), and every visitor method is a
pure function that returns the list of filesystem effects it performs
together with an optional raised error.  the Python `re.sub`, used by the
script for all path rewriting, is embedded for literal (metacharacter-free)
patterns as `subAll`, which replaces every non-overlapping occurrence
scanning left to right, exactly as `re.sub` does on such patterns.
-/

set_option autoImplicit false

namespace Timecopy

/-- Paths and path components are plain character strings. -/
abbrev Path := List Char

/-- Models `os.path.join(d, n)` for a relative component `n`. -/
def pjoin (d : Path) (n : List Char) : Path := d ++ '/' :: n

/-- Holds when `pat` is an initial segment of `s`. -/
def leadsWith : List Char → List Char → Bool
  | [], _ => true
  | _ :: _, [] => false
  | a :: as, b :: bs => a == b && leadsWith as bs

/-- Holds when `pat` is a final segment of `s` (Python `str.endswith`). -/
def trailsWith (pat s : List Char) : Bool := leadsWith pat.reverse s.reverse

/-- Holds when `pat` occurs as a contiguous substring of `s`. -/
def hasOcc (pat : List Char) : List Char → Bool
  | [] => leadsWith pat []
  | c :: rest => leadsWith pat (c :: rest) || hasOcc pat rest

/-- Embedding of the Python `re.sub(pat, repl, s)` for a literal pattern
`pat` containing no regex metacharacters: every non-overlapping occurrence
of `pat` is replaced by `repl`, scanning left to right.  (The script always
calls `re.sub` with filesystem paths and snapshot names as the pattern.) -/
def subAll (pat repl : List Char) : List Char → List Char
  | [] => []
  | c :: rest =>
    if 0 < pat.length ∧ leadsWith pat (c :: rest) = true then
      repl ++ subAll pat repl (List.drop pat.length (c :: rest))
    else
      c :: subAll pat repl rest
termination_by s => s.length
decreasing_by
  · simp only [List.length_drop, List.length_cons]
    omega
  · simp

/-- POSIX error numbers that the script inspects (`errno` module). -/
inductive Errno where
  | enoent
  | enotdir
  | eisdir
  | eperm
  | eother (n : Nat)
  deriving DecidableEq

/-- File kinds as reported by a non-link-following stat (`os.lstat`). -/
inductive FKind where
  | dirK
  | regK
  | lnkK
  | otherK
  deriving DecidableEq

/-- One filesystem node of the destination (or reference) volume: kind,
inode number and ownership from `os.lstat`, plus the stored target for a
symbolic link. -/
structure FNode where
  kind : FKind
  ino : Nat
  uid : Nat
  gid : Nat
  target : Path
  deriving DecidableEq

/-- First-match association-list lookup; a filesystem snapshot is a finite
list of `(path, node)` pairs and a missing path stats as `ENOENT`. -/
def alookup {α : Type} : List (Path × α) → Path → Option α
  | [], _ => none
  | (q, v) :: rest, p => if q = p then some v else alookup rest p

/-- Follows the chain of symbolic links starting at `p`, with the usual
bounded number of traversals; returns true when the chain ends at an
existing non-link node.  `0` fuel means the loop bound was exhausted, in
which case the OS reports a failure and `os.path.exists` returns false. -/
def resolveExists (fs : List (Path × FNode)) : Nat → Path → Bool
  | 0, _ => false
  | Nat.succ fuel, p =>
    match alookup fs p with
    | none => false
    | some n =>
      match n.kind with
      | FKind.lnkK => resolveExists fs fuel n.target
      | _ => true

/-- Models `os.path.exists(p)`: follows symbolic links (MAXSYMLINKS-style
bound), so a dangling symlink reports false. -/
def pathExists (fs : List (Path × FNode)) (p : Path) : Bool := resolveExists fs 40 p

/-- Models `os.path.lexists(p)`: true when a directory entry is present at
`p`, symlink-dangling or not. -/
def lexistsB (fs : List (Path × FNode)) (p : Path) : Bool := (alookup fs p).isSome

/-- The ownership/inode metadata carried by each source-tree entry. -/
structure Meta where
  ino : Nat
  uid : Nat
  gid : Nat
  deriving DecidableEq

/-- The source snapshot tree, as enumerated by `os.listdir` and classified
by `os.lstat` in `visitfiles`: directories carry named children, symbolic
links carry their `os.readlink` target, and `other` stands for any entry
whose mode is neither directory, regular file, nor symlink. -/
inductive SrcTree where
  | dir (m : Meta) (children : List (List Char × SrcTree))
  | file (m : Meta)
  | link (m : Meta) (target : Path)
  | other

/-- Metadata of the root entry of a tree. -/
def rootMeta : SrcTree → Meta
  | SrcTree.dir m _ => m
  | SrcTree.file m => m
  | SrcTree.link m _ => m
  | SrcTree.other => ⟨0, 0, 0⟩

/-- Children of the root directory of a tree. -/
def rootKids : SrcTree → List (List Char × SrcTree)
  | SrcTree.dir _ cs => cs
  | _ => []

mutual
/-- Flattens a source tree rooted at `p` into the `os.lstat` view of that
part of the filesystem (used to build the reference-snapshot stat map). -/
def flatT (p : Path) : SrcTree → List (Path × FNode)
  | SrcTree.dir m cs => (p, ⟨FKind.dirK, m.ino, m.uid, m.gid, []⟩) :: flatL p cs
  | SrcTree.file m => [(p, ⟨FKind.regK, m.ino, m.uid, m.gid, []⟩)]
  | SrcTree.link m t => [(p, ⟨FKind.lnkK, m.ino, m.uid, m.gid, t⟩)]
  | SrcTree.other => [(p, ⟨FKind.otherK, 0, 0, 0, []⟩)]

/-- Flattens the children of a directory, each joined under `d`. -/
def flatL (d : Path) : List (List Char × SrcTree) → List (Path × FNode)
  | [] => []
  | (n, t) :: rest => flatT (pjoin d n) t ++ flatL d rest
end

/-- The lines the script prints, kept structured: decision lines
(`mkdir`/`cp`/`ln`/`ln -s`), warnings, diagnostics and progress messages. -/
inductive PLine where
  | mkdirL (dst : Path)
  | cpL (src dst : Path)
  | lnL (dst odst : Path)
  | lnsL (tgt dst : Path)
  | warnUnknown (p : Path)
  | errRead (p : Path)
  | errNoBackup (base : Path)
  | skipExisting (name : List Char)
  | copyingInitial (name : List Char)
  | copyingBackup (name : List Char)
  deriving DecidableEq

/-- The observable actions of a run: a printed line, or one mutating
filesystem call.  `chownE` records an invocation of the `chown` helper of the script
helper (whose internal retry policy is modelled separately by
`chownModel`). -/
inductive Effect where
  | put (l : PLine)
  | mkdir (d : Path)
  | makedirs (d : Path)
  | copystat (s d : Path)
  | copyfile (s d : Path)
  | symlink (tgt d : Path)
  | hardlink (s d : Path)
  | chownE (p : Path) (u g : Nat)
  | unlink (p : Path)
  deriving DecidableEq

/-- How a visitor invocation ends abnormally: a raised `OSError`, or a
`sys.exit` already in flight. -/
inductive VErr where
  | os (e : Errno)
  | exitc (n : Nat)
  deriving DecidableEq

/-- Result of running a piece of the script: the effects performed so far,
plus the error (if any) that aborted it. -/
structure VOut where
  out : List Effect
  err : Option VErr
  deriving DecidableEq

/-- Sequencing: if the first part raised, the second never runs. -/
def VOut.seq (a b : VOut) : VOut :=
  match a.err with
  | some _ => a
  | none => ⟨a.out ++ b.out, b.err⟩

/-- The `link(src, dst)` helper (timecopy.py lines 100-106): checks the
link source with `os.path.exists` -- which follows symbolic links -- and
either hard-links or raises `OSError(ENOENT)`. -/
def linkCall (fs : List (Path × FNode)) (src dst : Path) : VOut :=
  if pathExists fs src then ⟨[Effect.hardlink src dst], none⟩
  else ⟨[], some (VErr.os Errno.enoent)⟩

/-- Outcome of one call to the `chown` helper: how many `time.sleep(1)`
calls ran, whether the link-following `os.chown` retry ran, and the error
re-raised to the caller (if any). -/
structure ChownRes where
  sleeps : Nat
  retried : Bool
  raised : Option Errno
  deriving DecidableEq

/-- The `chown(path, uid, gid)` helper (timecopy.py lines 69-98).
`lchownErr` is the outcome of the initial `os.lchown` call, `isLnk` whether
`os.lstat(path)` reports a symbolic link, and `retryErr` the outcome of the
link-following `os.chown` retry (consulted only when the retry runs; its
failure is swallowed by the inner `except OSError: pass`). -/
def chownModel (lchownErr : Option Errno) (isLnk : Bool) (retryErr : Option Errno) : ChownRes :=
  match lchownErr with
  | none => ⟨0, false, none⟩
  | some e =>
    if e = Errno.eperm then
      if isLnk then
        -- symlink: filtered out and ignored, no retry
        ⟨0, false, none⟩
      else
        -- sleep one second, retry with os.chown, ignore any OSError
        match retryErr with
        | none => ⟨1, true, none⟩
        | some _ => ⟨1, true, none⟩
    else
      -- any other error kind is re-raised
      ⟨0, false, some e⟩

/-- State of `CopyInitialVisitor`: source root, destination root, flags. -/
structure ICfg where
  src : Path
  dst : Path
  verbose : Bool
  dryrun : Bool

/-- State of `CopyBackupVisitor`: `old` is the reference tree root (the
previous snapshot source path), `prev`/`curr` the previous/current
snapshot entry names, `src`/`dst` the roots being copied, plus flags.
`refStat` is the `os.lstat` view of the reference side of the source
volume, and `dstFS` the destination volume consulted by `os.path.exists`
inside the `link` helper (static here: the link targets live under the
previous snapshot destination, which this traversal does not modify). -/
structure BCfg where
  old : Path
  prev : List Char
  curr : List Char
  src : Path
  dst : Path
  verbose : Bool
  dryrun : Bool
  refStat : List (Path × Except Errno FNode)
  dstFS : List (Path × FNode)

/-- Computes `re.sub(self.src, self.old, path)`: the reference path of a
source entry (ReferenceMapping). -/
def refPathOf (c : BCfg) (p : Path) : Path := subAll c.src c.old p

/-- Computes `re.sub(self.src, self.dst, path)` in `CopyBackupVisitor`
(DestinationMapping). -/
def dstPathOfB (c : BCfg) (p : Path) : Path := subAll c.src c.dst p

/-- Computes `re.sub(self.curr, self.prev, dst)`: the counterpart of a
destination path under the previous snapshot destination
(PreviousDestinationMapping). -/
def prevDstOf (c : BCfg) (p : Path) : Path := subAll c.curr c.prev (dstPathOfB c p)

/-- Computes `re.sub(self.src, self.dst, path)` in `CopyInitialVisitor`. -/
def dstPathOfI (c : ICfg) (p : Path) : Path := subAll c.src c.dst p

/-- Models `os.lstat` on the reference side: a path missing from the stat
map raises `ENOENT`. -/
def lstatRef (c : BCfg) (p : Path) : Except Errno FNode :=
  match alookup c.refStat p with
  | some r => r
  | none => Except.error Errno.enoent

/-- The try/except + inode comparison shared verbatim by
`CopyBackupVisitor.dir`/`file`/`link` (timecopy.py lines 187-198, 217-228,
247-258): `ok true` is MATCH, `ok false` NO-MATCH (reference missing,
incompatible kind, or differing inode), and `error e` re-raises any other
stat failure. -/
def refDecision (c : BCfg) (p : Path) (ino : Nat) : Except Errno Bool :=
  match lstatRef c (refPathOf c p) with
  | Except.error e =>
    if e = Errno.enoent ∨ e = Errno.enotdir ∨ e = Errno.eisdir then Except.ok false
    else Except.error e
  | Except.ok n => Except.ok (ino == n.ino)

/-- The MATCH branch shared by all three `CopyBackupVisitor` methods:
print the `ln` decision, then (unless dry-run) call the `link` helper on
the previous snapshot destination path. -/
def lnBranch (c : BCfg) (p : Path) : VOut :=
  let dst := dstPathOfB c p
  let odst := prevDstOf c p
  VOut.seq ⟨if c.verbose then [Effect.put (PLine.lnL dst odst)] else [], none⟩
    (if c.dryrun then ⟨[], none⟩ else linkCall c.dstFS odst dst)

mutual
/-- Models `CopyInitialVisitor.dir`/`file`/`link` (timecopy.py lines
108-158), dispatched on the kind of the entry at path `p`. -/
def iVisit (c : ICfg) (p : Path) : SrcTree → VOut
  | SrcTree.dir m cs =>
    let dst := dstPathOfI c p
    VOut.seq ⟨(if c.verbose then [Effect.put (PLine.mkdirL dst)] else []) ++
        (if c.dryrun then [] else
          [Effect.mkdir dst, Effect.copystat p dst, Effect.chownE dst m.uid m.gid]), none⟩
      (iWalk c p cs)
  | SrcTree.file m =>
    let dst := dstPathOfI c p
    ⟨(if c.verbose then [Effect.put (PLine.cpL p dst)] else []) ++
      (if c.dryrun then [] else
        [Effect.copyfile p dst, Effect.copystat p dst, Effect.chownE dst m.uid m.gid]), none⟩
  | SrcTree.link m tgt =>
    let dst := dstPathOfI c p
    ⟨(if c.verbose then [Effect.put (PLine.lnsL tgt dst)] else []) ++
      (if c.dryrun then [] else
        [Effect.symlink tgt dst, Effect.chownE dst m.uid m.gid]), none⟩
  | SrcTree.other => ⟨[], none⟩

/-- Models `visitfiles(d, visitor)` (timecopy.py lines 50-67) driving
`CopyInitialVisitor`: classify each child, warn on unknown kinds, and turn
any `OSError` raised under the visitor call into the `ERROR ...` line and
`sys.exit(2)`. -/
def iWalk (c : ICfg) (d : Path) : List (List Char × SrcTree) → VOut
  | [] => ⟨[], none⟩
  | (n, t) :: rest =>
    let pn := pjoin d n
    let r :=
      match t with
      | SrcTree.other => (⟨[Effect.put (PLine.warnUnknown pn)], none⟩ : VOut)
      | SrcTree.dir m cs => iVisit c pn (SrcTree.dir m cs)
      | SrcTree.file m => iVisit c pn (SrcTree.file m)
      | SrcTree.link m tgt => iVisit c pn (SrcTree.link m tgt)
    let r2 :=
      match r.err with
      | some (VErr.os _) => (⟨r.out ++ [Effect.put (PLine.errRead pn)], some (VErr.exitc 2)⟩ : VOut)
      | _ => r
    VOut.seq r2 (iWalk c d rest)
end


mutual
/-- Models `CopyBackupVisitor.dir`/`file`/`link` (timecopy.py lines
160-272), dispatched on the kind of the entry at path `p`. -/
def bVisit (c : BCfg) (p : Path) : SrcTree → VOut
  | SrcTree.dir m cs =>
    (match refDecision c p m.ino with
     | Except.error e => (⟨[], some (VErr.os e)⟩ : VOut)
     | Except.ok true => lnBranch c p
     | Except.ok false =>
       let dst := dstPathOfB c p
       VOut.seq ⟨(if c.verbose then [Effect.put (PLine.mkdirL dst)] else []) ++
           (if c.dryrun then [] else
             [Effect.mkdir dst, Effect.copystat p dst, Effect.chownE dst m.uid m.gid]), none⟩
         (bWalk c p cs))
  | SrcTree.file m =>
    (match refDecision c p m.ino with
     | Except.error e => (⟨[], some (VErr.os e)⟩ : VOut)
     | Except.ok true => lnBranch c p
     | Except.ok false =>
       let dst := dstPathOfB c p
       ⟨(if c.verbose then [Effect.put (PLine.cpL p dst)] else []) ++
         (if c.dryrun then [] else
           [Effect.copyfile p dst, Effect.copystat p dst, Effect.chownE dst m.uid m.gid]), none⟩)
  | SrcTree.link m tgt =>
    (match refDecision c p m.ino with
     | Except.error e => (⟨[], some (VErr.os e)⟩ : VOut)
     | Except.ok true => lnBranch c p
     | Except.ok false =>
       let dst := dstPathOfB c p
       ⟨(if c.verbose then [Effect.put (PLine.lnsL tgt dst)] else []) ++
         (if c.dryrun then [] else
           [Effect.symlink tgt dst, Effect.chownE dst m.uid m.gid]), none⟩)
  | SrcTree.other => ⟨[], none⟩

/-- Models `visitfiles(d, visitor)` driving `CopyBackupVisitor`. -/
def bWalk (c : BCfg) (d : Path) : List (List Char × SrcTree) → VOut
  | [] => ⟨[], none⟩
  | (n, t) :: rest =>
    let pn := pjoin d n
    let r :=
      match t with
      | SrcTree.other => (⟨[Effect.put (PLine.warnUnknown pn)], none⟩ : VOut)
      | SrcTree.dir m cs => bVisit c pn (SrcTree.dir m cs)
      | SrcTree.file m => bVisit c pn (SrcTree.file m)
      | SrcTree.link m tgt => bVisit c pn (SrcTree.link m tgt)
    let r2 :=
      match r.err with
      | some (VErr.os _) => (⟨r.out ++ [Effect.put (PLine.errRead pn)], some (VErr.exitc 2)⟩ : VOut)
      | _ => r
    VOut.seq r2 (bWalk c d rest)
end

/-- The literal name `Latest`. -/
def latestName : List Char := ['L', 'a', 't', 'e', 's', 't']

/-- The literal suffix `.inProgress`. -/
def inProgSuffix : List Char := ['.', 'i', 'n', 'P', 'r', 'o', 'g', 'r', 'e', 's', 's']

/-- The literal name `Backups.backupdb`. -/
def backupsName : List Char :=
  ['B', 'a', 'c', 'k', 'u', 'p', 's', '.', 'b', 'a', 'c', 'k', 'u', 'p', 'd', 'b']

/-- The snapshot filter `okay` (timecopy.py line 288): drop `Latest` and
names ending in `.inProgress`. -/
def okayEntry (s : List Char) : Bool :=
  if s = latestName then false else ! trailsWith inProgSuffix s

/-- Lexicographic comparison of names by character code (Python 2 `str`
comparison, as used by `entries.sort()`). -/
def strLe : List Char → List Char → Bool
  | [], _ => true
  | _ :: _, [] => false
  | a :: as, b :: bs => if a = b then strLe as bs else decide (a.toNat < b.toNat)

/-- Insert into a sorted list of names. -/
def insertStr (x : List Char) : List (List Char) → List (List Char)
  | [] => [x]
  | y :: ys => if strLe x y then x :: y :: ys else y :: insertStr x ys

/-- Models `entries.sort()`: sort snapshot names ascending. -/
def sortStrs : List (List Char) → List (List Char)
  | [] => []
  | x :: xs => insertStr x (sortStrs xs)

/-- The nested `mkdest` helper (timecopy.py lines 291-298): print the
decision, and unless dry-run create the destination directory chain, copy
its stats and apply ownership of the source. -/
def mkdest (verbose dryrun : Bool) (srcMeta : Meta) (source target : Path) : List Effect :=
  (if verbose then [Effect.put (PLine.mkdirL target)] else []) ++
  (if dryrun then [] else
    [Effect.makedirs target, Effect.copystat source target,
     Effect.chownE target srcMeta.uid srcMeta.gid])

/-- Result of running the orchestrator: normal completion, `sys.exit(n)`,
or an unhandled `IndexError` (which aborts the interpreter with a
traceback). -/
inductive RRes where
  | ok
  | exitc (n : Nat)
  | indexError
  deriving DecidableEq

/-- Effects performed plus how the orchestrator run ended. -/
structure RunOut where
  out : List Effect
  res : RRes
  deriving DecidableEq

/-- Sequencing for orchestrator phases: a non-`ok` outcome aborts. -/
def RunOut.seq (a b : RunOut) : RunOut :=
  match a.res with
  | RRes.ok => ⟨a.out ++ b.out, b.res⟩
  | _ => a

/-- Lifts a visitor traversal into an orchestrator phase.  A raw `OSError`
cannot escape a traversal (every visitor call sits under the `try` of some
`visitfiles`, which exits with status 2); the `VErr.os` case is mapped
accordingly. -/
def liftV (v : VOut) : RunOut :=
  ⟨v.out,
    match v.err with
    | none => RRes.ok
    | some (VErr.exitc n) => RRes.exitc n
    | some (VErr.os _) => RRes.exitc 2⟩

/-- The filesystem environment `copybackupdb` runs against: whether
`<srcbase>/Backups.backupdb` exists, the raw `os.listdir` of each host
directory, the source tree of each snapshot root path, the (initial)
destination volume, the raw `os.listdir` of the source base for the
MAC-address dotfile scan, and the `os.lstat` ownership of those dotfiles.
The destination volume is taken as fixed for the existence checks: the
paths tested (`dstbkup`, and link targets under the previous snapshot's
destination) are not written by the phases that precede each test within a
dry run, and the claims settled against this model do not depend on
feedback from earlier real-run writes. -/
structure World where
  srcdbExists : Bool
  hosts : List (List Char × List (List Char))
  treeAt : List (Path × SrcTree)
  dstFS : List (Path × FNode)
  srcEntries : List (List Char)
  dotMeta : List (List Char × Meta)

/-- The source tree rooted at a snapshot path. -/
def treeOf (w : World) (p : Path) : SrcTree :=
  match alookup w.treeAt p with
  | some t => t
  | none => SrcTree.dir ⟨0, 0, 0⟩ []

/-- The `os.lstat` view of the reference snapshot rooted at `root`. -/
def refStatOf (root : Path) (t : SrcTree) : List (Path × Except Errno FNode) :=
  (flatT root t).map (fun pr => (pr.fst, Except.ok pr.snd))

/-- Last element of a nonempty list of names (`entries[-1]`). -/
def lastOf (e0 : List Char) : List (List Char) → List Char
  | [] => e0
  | r :: rs => lastOf r rs

/-- The loop over `entries[1:]` (timecopy.py lines 312-325): each later
snapshot is skipped if its destination exists, otherwise copied by a
`CopyBackupVisitor` whose reference tree is the previous snapshot source tree
and whose hard links target the previous snapshot destination. -/
def laterLoop (w : World) (src dst : Path) (verbose dryrun : Bool) :
    List Char → Path → List (List Char) → RunOut
  | _, _, [] => ⟨[], RRes.ok⟩
  | prevName, prevSrc, e :: es =>
    let srcbkup := pjoin src e
    let dstbkup := pjoin dst e
    let step : RunOut :=
      if pathExists w.dstFS dstbkup then ⟨[Effect.put (PLine.skipExisting e)], RRes.ok⟩
      else
        RunOut.seq
          ⟨mkdest verbose dryrun (rootMeta (treeOf w srcbkup)) srcbkup dstbkup ++
            [Effect.put (PLine.copyingBackup e)], RRes.ok⟩
          (liftV (bWalk
            ⟨prevSrc, prevName, e, srcbkup, dstbkup, verbose, dryrun,
             refStatOf prevSrc (treeOf w prevSrc), w.dstFS⟩
            srcbkup (rootKids (treeOf w srcbkup))))
    RunOut.seq step (laterLoop w src dst verbose dryrun e srcbkup es)

/-- One iteration of the host loop (timecopy.py lines 284-330): filter and
sort the snapshot names (`entries[0]` on an empty list raises
`IndexError`), copy the initial snapshot with `CopyInitialVisitor` unless
its destination exists, copy each later snapshot with `CopyBackupVisitor`,
then unconditionally recreate the `Latest` symlink -- note that the final
`os.unlink`/`os.symlink` pair is not guarded by the dry-run flag. -/
def doHost (w : World) (srcdb dstdb : Path) (verbose dryrun : Bool)
    (host : List Char × List (List Char)) : RunOut :=
  let src := pjoin srcdb host.fst
  let entries := sortStrs (host.snd.filter okayEntry)
  match entries with
  | [] => ⟨[], RRes.indexError⟩
  | e0 :: rest =>
    let dst := pjoin dstdb host.fst
    let srcbkup0 := pjoin src e0
    let dstbkup0 := pjoin dst e0
    let initPart : RunOut :=
      if pathExists w.dstFS dstbkup0 then ⟨[Effect.put (PLine.skipExisting e0)], RRes.ok⟩
      else
        RunOut.seq
          ⟨mkdest verbose dryrun (rootMeta (treeOf w srcbkup0)) srcbkup0 dstbkup0 ++
            [Effect.put (PLine.copyingInitial e0)], RRes.ok⟩
          (liftV (iWalk ⟨srcbkup0, dstbkup0, verbose, dryrun⟩ srcbkup0
            (rootKids (treeOf w srcbkup0))))
    let latest := pjoin dst latestName
    let latestPart : RunOut :=
      ⟨(if lexistsB w.dstFS latest then [Effect.unlink latest] else []) ++
        [Effect.symlink (lastOf e0 rest) latest], RRes.ok⟩
    RunOut.seq initPart
      (RunOut.seq (laterLoop w src dst verbose dryrun e0 srcbkup0 rest) latestPart)

/-- The `for host in hosts` loop. -/
def doHosts (w : World) (srcdb dstdb : Path) (verbose dryrun : Bool) :
    List (List Char × List (List Char)) → RunOut
  | [] => ⟨[], RRes.ok⟩
  | h :: hs =>
    RunOut.seq (doHost w srcdb dstdb verbose dryrun h)
      (doHosts w srcdb dstdb verbose dryrun hs)

/-- Matches `[0-9a-f]` (lower-case hex digit). -/
def isHexLower (c : Char) : Bool :=
  (decide ('0' ≤ c) && decide (c ≤ '9')) || (decide ('a' ≤ c) && decide (c ≤ 'f'))

/-- The anchored regex `^\.[0-9a-f]{12}$` used for the MAC-address
dotfiles. -/
def macMatch (s : List Char) : Bool :=
  match s with
  | [] => false
  | c :: rest => c == '.' && rest.length == 12 && rest.all isHexLower

/-- Ownership metadata of a dotfile in the source base directory. -/
def dotMetaOf (w : World) (n : List Char) : Meta :=
  match alookup w.dotMeta n with
  | some m => m
  | none => ⟨0, 0, 0⟩

/-- The MAC-address dotfile pass (timecopy.py lines 331-341): copy matching
dotfiles verbatim -- also not guarded by the dry-run flag. -/
def dotfilesPart (w : World) (srcbase dstbase : Path) : List Effect :=
  (w.srcEntries.filter macMatch).foldr
    (fun e acc =>
      let s := pjoin srcbase e
      let d := pjoin dstbase e
      Effect.copyfile s d :: Effect.copystat s d ::
        Effect.chownE d (dotMetaOf w e).uid (dotMetaOf w e).gid :: acc)
    []

/-- Models `copybackupdb(srcbase, dstbase, verbose, dryrun)` (timecopy.py
lines 274-341). -/
def copybackupdb (w : World) (srcbase dstbase : Path) (verbose dryrun : Bool) : RunOut :=
  if w.srcdbExists then
    let srcdb := pjoin srcbase backupsName
    let dstdb := pjoin dstbase backupsName
    RunOut.seq (doHosts w srcdb dstdb verbose dryrun w.hosts)
      ⟨dotfilesPart w srcbase dstbase, RRes.ok⟩
  else ⟨[Effect.put (PLine.errNoBackup srcbase)], RRes.exitc 2⟩

/-- The command line as `getopt` hands it to `main`: whether parsing
failed, which flags were given, and the positional arguments. -/
structure Args where
  getoptError : Bool
  wantsHelp : Bool
  verboseFlag : Bool
  dryrunFlag : Bool
  posArgs : List Path

/-- What the filesystem checks in `main` observe, plus whether a
`KeyboardInterrupt` arrives during the copy. -/
structure MainEnv where
  srcExists : Bool
  srcIsDir : Bool
  dstExists : Bool
  dstIsDir : Bool
  interrupted : Bool

/-- The process exit status of `main()` (timecopy.py lines 376-427).
`sys.exit()` with no argument is status 0; an unhandled exception
(`IndexError` from `copybackupdb`) makes the interpreter print a traceback
and exit with status 1. -/
def mainExit (a : Args) (env : MainEnv) (w : World) : Nat :=
  if a.getoptError then 2
  else if a.wantsHelp then 0
  else if a.posArgs.length ≠ 2 then 2
  else if env.srcExists = false then 1
  else if env.srcIsDir = false then 1
  else if env.dstExists = false then 1
  else if env.dstIsDir = false then 1
  else if env.interrupted then 1
  else
    match (copybackupdb w (a.posArgs.headD []) ((a.posArgs.drop 1).headD [])
        a.verboseFlag a.dryrunFlag).res with
    | RRes.ok => 0
    | RRes.exitc n => n
    | RRes.indexError => 1

/-- The `CopyInitialVisitor` that a `CopyBackupVisitor` falls back to on
NO-MATCH: same roots, same flags. -/
def toICfg (c : BCfg) : ICfg := ⟨c.src, c.dst, c.verbose, c.dryrun⟩

/-- A destination volume holding only a dangling symlink. -/
def fsDangling : List (Path × FNode) := [(['p'], ⟨FKind.lnkK, 1, 0, 0, ['q']⟩)]

/-- Reference stat map making inode 5 at `o/f` a MATCH. -/
def refStatW : List (Path × Except Errno FNode) :=
  [(pjoin ['o'] ['f'], Except.ok ⟨FKind.regK, 5, 1, 2, []⟩)]

/-- A backup-visitor configuration whose previous-snapshot destination
volume is empty, so every hard-link target is missing. -/
def cMissing : BCfg := ⟨['o'], ['P'], ['C'], ['s'], ['d'], false, false, refStatW, []⟩

/-- A backup-visitor configuration whose destination volume contains the
previous snapshot destination file, so the hard link succeeds. -/
def cLinked : BCfg :=
  ⟨['o'], ['P'], ['C'], ['s'], ['d'], false, false, refStatW,
   [(['d', '/', 'f'], ⟨FKind.regK, 9, 0, 0, []⟩)]⟩

/-- A dry-run backup-visitor configuration with an empty reference volume,
so every entry is NO-MATCH. -/
def cDry : BCfg := ⟨['o'], ['P'], ['C'], ['s'], ['d'], true, true, [], []⟩

/-- A backup-visitor configuration whose source root `/s` recurs as a
substring further down the paths it copies. -/
def cRecur : BCfg := ⟨['/', 'r'], ['P'], ['C'], ['/', 's'], ['/', 'd'], false, true, [], []⟩

/-- A backup-visitor configuration with well-separated roots: source root
`/s`, snapshot names `x` (current) and `y` (previous). -/
def cClean : BCfg := ⟨['/', 'r'], ['y'], ['x'], ['/', 's'], ['/', 'd'], false, true, [], []⟩

/-- A source volume with one host whose only snapshot entry is the
`Latest` pointer, which the filter removes. -/
def wLatestOnly : World := ⟨true, [(['h'], [latestName])], [], [], [], []⟩

/-- A source volume with one host and one real snapshot `A`, empty trees
and an empty destination. -/
def wOneSnap : World := ⟨true, [(['h'], [['A']])], [], [], [], []⟩

/-- A command line with no positional arguments and no flags. -/
def argsNone : Args := ⟨false, false, false, false, []⟩

/-- An environment where every path check would pass. -/
def envAllOk : MainEnv := ⟨true, true, true, true, false⟩

/-- An empty but valid source volume. -/
def wEmpty : World := ⟨true, [], [], [], [], []⟩

/-- A command line naming a source and a target. -/
def argsTwo : Args := ⟨false, false, false, false, [['/', 'a'], ['/', 'b']]⟩

theorem leadsWith_append (pat t : List Char) : leadsWith pat (pat ++ t) = true := by
  induction pat with
  | nil => rfl
  | cons a as ih => simp [leadsWith, ih]

theorem leadsWith_eq_true_iff (pat s : List Char) :
    leadsWith pat s = true ↔ ∃ t, s = pat ++ t := by
  induction pat generalizing s with
  | nil => simp [leadsWith]
  | cons a as ih =>
    cases s with
    | nil =>
      simp only [leadsWith, List.cons_append]
      constructor
      · intro h; exact absurd h (by simp)
      · rintro ⟨t, ht⟩; exact absurd ht (by simp)
    | cons b bs =>
      simp only [leadsWith, Bool.and_eq_true, beq_iff_eq, ih, List.cons_append]
      constructor
      · rintro ⟨rfl, t, rfl⟩; exact ⟨t, rfl⟩
      · rintro ⟨t, ht⟩
        injection ht with h1 h2
        exact ⟨h1.symm, t, h2⟩

/-- If the pattern occurs nowhere in `s`, substitution leaves `s` alone. -/
theorem subAll_of_no_occ (pat repl s : List Char) (h : hasOcc pat s = false) :
    subAll pat repl s = s := by
  induction s with
  | nil => rw [subAll]
  | cons c rest ih =>
    simp only [hasOcc, Bool.or_eq_false_iff] at h
    rw [subAll]
    rw [if_neg]
    · rw [ih h.2]
    · intro hc
      rw [h.1] at hc
      exact Bool.false_ne_true hc.2

/-- Substituting in `pat ++ t` rewrites the leading occurrence and continues
in `t`. -/
theorem subAll_append_self (pat repl t : List Char) (hp : pat ≠ []) :
    subAll pat repl (pat ++ t) = repl ++ subAll pat repl t := by
  cases pat with
  | nil => exact absurd rfl hp
  | cons a as =>
    rw [List.cons_append, subAll, if_pos]
    · have hd : List.drop (a :: as).length (a :: as ++ t) = t :=
        List.drop_left (a :: as) t
      rw [List.cons_append] at hd
      rw [hd]
    · exact ⟨by simp, by simpa using leadsWith_append (a :: as) t⟩

/-- Root-swap: when the pattern heads the string and recurs nowhere in the
remainder, `re.sub` is exactly "swap the root, keep the suffix". -/
theorem subAll_head_swap (pat repl t : List Char) (hp : pat ≠ [])
    (h : hasOcc pat t = false) :
    subAll pat repl (pat ++ t) = repl ++ t := by
  rw [subAll_append_self pat repl t hp, subAll_of_no_occ pat repl t h]

/-- Middle-swap: when the pattern occurs exactly once, at a known position,
`re.sub` replaces just that occurrence. -/
theorem subAll_mid_swap (pat repl : List Char) (a b : List Char) (hp : pat ≠ [])
    (hb : hasOcc pat b = false)
    (ha : ∀ i, i < a.length → leadsWith pat (List.drop i (a ++ pat ++ b)) = false) :
    subAll pat repl (a ++ pat ++ b) = a ++ repl ++ b := by
  induction a with
  | nil =>
    simp only [List.nil_append]
    exact subAll_head_swap pat repl b hp hb
  | cons c a2 ih =>
    have hhead : leadsWith pat (c :: (a2 ++ pat ++ b)) = false := by
      have := ha 0 (by simp)
      simpa using this
    have hrest : subAll pat repl (a2 ++ pat ++ b) = a2 ++ repl ++ b := by
      apply ih
      intro i hi
      have := ha (i + 1) (by simpa using Nat.succ_lt_succ hi)
      simpa using this
    have hstep : subAll pat repl (c :: (a2 ++ pat ++ b)) =
        c :: subAll pat repl (a2 ++ pat ++ b) := by
      rw [subAll, if_neg]
      intro hc
      rw [hhead] at hc
      exact Bool.false_ne_true hc.2
    calc subAll pat repl ((c :: a2) ++ pat ++ b)
        = subAll pat repl (c :: (a2 ++ pat ++ b)) := by simp
      _ = c :: subAll pat repl (a2 ++ pat ++ b) := hstep
      _ = (c :: a2) ++ repl ++ b := by rw [hrest]; simp

theorem VOut.seq_none (a b : VOut) (h : a.err = none) :
    VOut.seq a b = ⟨a.out ++ b.out, b.err⟩ := by
  unfold VOut.seq
  rw [h]

theorem dstPath_toICfg (c : BCfg) (p : Path) : dstPathOfI (toICfg c) p = dstPathOfB c p := rfl

theorem bVisit_noMatch_file (c : BCfg) (p : Path) (m : Meta)
    (h : refDecision c p m.ino = Except.ok false) :
    bVisit c p (SrcTree.file m) = iVisit (toICfg c) p (SrcTree.file m) := by
  rw [bVisit, iVisit, h]
  rfl

theorem bVisit_noMatch_link (c : BCfg) (p : Path) (m : Meta) (tgt : Path)
    (h : refDecision c p m.ino = Except.ok false) :
    bVisit c p (SrcTree.link m tgt) = iVisit (toICfg c) p (SrcTree.link m tgt) := by
  rw [bVisit, iVisit, h]
  rfl

theorem bVisit_noMatch_dir (c : BCfg) (p : Path) (m : Meta)
    (cs : List (List Char × SrcTree))
    (h : refDecision c p m.ino = Except.ok false) :
    bVisit c p (SrcTree.dir m cs) =
      VOut.seq (iVisit (toICfg c) p (SrcTree.dir m [])) (bWalk c p cs) := by
  rw [bVisit, iVisit, iWalk, h]
  simp [VOut.seq, toICfg, dstPathOfI, dstPathOfB]

theorem bVisit_match (c : BCfg) (p : Path) (m : Meta)
    (cs : List (List Char × SrcTree)) (tgt : Path)
    (h : refDecision c p m.ino = Except.ok true) :
    bVisit c p (SrcTree.dir m cs) = lnBranch c p ∧
    bVisit c p (SrcTree.file m) = lnBranch c p ∧
    bVisit c p (SrcTree.link m tgt) = lnBranch c p := by
  refine ⟨?_, ?_, ?_⟩ <;> (rw [bVisit, h])

theorem lnBranch_dryrun (c : BCfg) (p : Path) (h : c.dryrun = true) :
    lnBranch c p =
      ⟨if c.verbose then [Effect.put (PLine.lnL (dstPathOfB c p) (prevDstOf c p))] else [],
       none⟩ := by
  rw [lnBranch]
  simp [h, VOut.seq]

theorem lnBranch_real_exists (c : BCfg) (p : Path) (hd : c.dryrun = false)
    (he : pathExists c.dstFS (prevDstOf c p) = true) :
    lnBranch c p =
      ⟨(if c.verbose then [Effect.put (PLine.lnL (dstPathOfB c p) (prevDstOf c p))] else []) ++
        [Effect.hardlink (prevDstOf c p) (dstPathOfB c p)], none⟩ := by
  rw [lnBranch]
  simp [hd, he, linkCall, VOut.seq]

theorem lnBranch_real_missing (c : BCfg) (p : Path) (hd : c.dryrun = false)
    (he : pathExists c.dstFS (prevDstOf c p) = false) :
    lnBranch c p =
      ⟨(if c.verbose then [Effect.put (PLine.lnL (dstPathOfB c p) (prevDstOf c p))] else []),
       some (VErr.os Errno.enoent)⟩ := by
  rw [lnBranch]
  simp [hd, he, linkCall, VOut.seq]

/-- Any `OSError` raised by a visitor method is caught by the enclosing
`visitfiles`, which prints the `ERROR` line and calls `sys.exit(2)`. -/
theorem bWalk_os_exit (c : BCfg) (d : Path) (n : List Char) (t : SrcTree)
    (rest : List (List Char × SrcTree)) (e : Errno)
    (h : (bVisit c (pjoin d n) t).err = some (VErr.os e)) :
    (bWalk c d ((n, t) :: rest)).err = some (VErr.exitc 2) := by
  rw [bWalk.eq_def]
  cases t with
  | other =>
    rw [bVisit] at h
    simp at h
  | dir m cs =>
    simp only
    rw [h]
    simp [VOut.seq]
  | file m =>
    simp only
    rw [h]
    simp [VOut.seq]
  | link m tgt =>
    simp only
    rw [h]
    simp [VOut.seq]

/-- C6: the `chown` helper waits one second and retries once with the
link-following variant on a permission error against a non-symlink,
silently ignoring a second failure; returns immediately without retrying on
a permission error against a symlink; and re-raises any other error. -/
theorem claim_C6_chown_policy (lchownErr : Option Errno) (isLnk : Bool)
    (retryErr : Option Errno) :
    (lchownErr = some Errno.eperm → isLnk = false →
      chownModel lchownErr isLnk retryErr = ⟨1, true, none⟩) ∧
    (lchownErr = some Errno.eperm → isLnk = true →
      chownModel lchownErr isLnk retryErr = ⟨0, false, none⟩) ∧
    (∀ e, lchownErr = some e → e ≠ Errno.eperm →
      chownModel lchownErr isLnk retryErr = ⟨0, false, some e⟩) := by
  refine ⟨?_, ?_, ?_⟩
  · intro h1 h2
    subst h1; subst h2
    cases retryErr <;> simp [chownModel]
  · intro h1 h2
    subst h1; subst h2
    simp [chownModel]
  · intro e h1 h2
    subst h1
    simp [chownModel, h2]

/-- Witness for C6: a permission error on a plain directory sleeps once,
retries, and ignores the failure of the retry. -/
theorem claim_C6_chown_policy_witness :
    chownModel (some Errno.eperm) false (some Errno.eperm) = ⟨1, true, none⟩ :=
  (claim_C6_chown_policy (some Errno.eperm) false (some Errno.eperm)).1 rfl rfl

/-- C9: the `link` helper checks its source with the symlink-following
`os.path.exists`, so a dangling symlink at the previous-snapshot
destination path raises the fatal ENOENT error even though a directory
entry is present at that path. -/
theorem claim_C9_dangling_symlink (fs : List (Path × FNode)) (p d : Path) (n : FNode)
    (h1 : alookup fs p = some n) (h2 : n.kind = FKind.lnkK)
    (h3 : alookup fs n.target = none) :
    lexistsB fs p = true ∧
    linkCall fs p d = ⟨[], some (VErr.os Errno.enoent)⟩ := by
  have hres : pathExists fs p = false := by
    unfold pathExists
    rw [show (40 : Nat) = Nat.succ 39 from rfl]
    rw [resolveExists]
    rw [h1]
    simp only [h2]
    rw [show (39 : Nat) = Nat.succ 38 from rfl]
    rw [resolveExists]
    rw [h3]
  constructor
  · rw [lexistsB, h1]
    rfl
  · rw [linkCall, if_neg]
    rw [hres]
    exact Bool.false_ne_true

/-- Witness for C9: an entry is present at the path, yet `link` raises
ENOENT. -/
theorem claim_C9_dangling_symlink_witness :
    lexistsB fsDangling ['p'] = true ∧
    linkCall fsDangling ['p'] ['d'] = ⟨[], some (VErr.os Errno.enoent)⟩ :=
  claim_C9_dangling_symlink fsDangling ['p'] ['d'] ⟨FKind.lnkK, 1, 0, 0, ['q']⟩ rfl rfl rfl

/-- C4: on MATCH with the previous-snapshot destination path absent, the
`link` helper raises ENOENT, the raised error escapes the visitor method,
and the enclosing `visitfiles` terminates the run with exit status 2; the
hard link is created only when that path exists. -/
theorem claim_C4_link_fatal (c : BCfg) (p : Path) (m : Meta)
    (fs : List (Path × FNode)) (s d : Path) :
    (pathExists fs s = false → linkCall fs s d = ⟨[], some (VErr.os Errno.enoent)⟩) ∧
    (pathExists fs s = true → linkCall fs s d = ⟨[Effect.hardlink s d], none⟩) ∧
    (refDecision c p m.ino = Except.ok true → c.dryrun = false →
      pathExists c.dstFS (prevDstOf c p) = false →
      (bVisit c p (SrcTree.file m)).err = some (VErr.os Errno.enoent) ∧
      (∀ dd nn rest, pjoin dd nn = p →
        (bWalk c dd ((nn, SrcTree.file m) :: rest)).err = some (VErr.exitc 2))) := by
  refine ⟨?_, ?_, ?_⟩
  · intro h
    rw [linkCall, if_neg]
    rw [h]
    exact Bool.false_ne_true
  · intro h
    rw [linkCall, if_pos h]
  · intro hm hd he
    have hv : (bVisit c p (SrcTree.file m)).err = some (VErr.os Errno.enoent) := by
      rw [(bVisit_match c p m [] [] hm).2.1, lnBranch_real_missing c p hd he]
    refine ⟨hv, ?_⟩
    intro dd nn rest hj
    apply bWalk_os_exit c dd nn (SrcTree.file m) rest Errno.enoent
    rw [hj]
    exact hv

/-- Witness for C4: MATCH with an empty destination volume raises ENOENT
and the walk exits with status 2. -/
theorem claim_C4_link_fatal_witness :
    (bVisit cMissing (pjoin ['s'] ['f']) (SrcTree.file ⟨5, 1, 2⟩)).err =
      some (VErr.os Errno.enoent) ∧
    (bWalk cMissing ['s'] [(['f'], SrcTree.file ⟨5, 1, 2⟩)]).err =
      some (VErr.exitc 2) := by
  have h := (claim_C4_link_fatal cMissing (pjoin ['s'] ['f']) ⟨5, 1, 2⟩ [] [] []).2.2
    (by simp [refDecision, lstatRef, refPathOf, cMissing, refStatW, alookup, subAll,
      leadsWith, pjoin])
    rfl
    (by rfl)
  exact ⟨h.1, h.2 ['s'] ['f'] [] rfl⟩

/-- C1: on NO-MATCH (reference stat fails with ENOENT/ENOTDIR/EISDIR, or
succeeds with a different inode) each `CopyBackupVisitor` method performs
for the entry exactly the effects of the corresponding
`CopyInitialVisitor` method (for a directory: the same per-entry effects,
followed by the walk of its children); on MATCH (reference stat succeeds
with an equal inode) no copy happens and the only filesystem effect is a
hard link at the destination path pointing at the previous snapshot's
destination path. -/
theorem claim_C1_match_decision (c : BCfg) (p : Path) (m : Meta)
    (cs : List (List Char × SrcTree)) (tgt : Path) :
    (refDecision c p m.ino = Except.ok false →
      bVisit c p (SrcTree.file m) = iVisit (toICfg c) p (SrcTree.file m) ∧
      bVisit c p (SrcTree.link m tgt) = iVisit (toICfg c) p (SrcTree.link m tgt) ∧
      bVisit c p (SrcTree.dir m cs) =
        VOut.seq (iVisit (toICfg c) p (SrcTree.dir m [])) (bWalk c p cs)) ∧
    (refDecision c p m.ino = Except.ok true → c.dryrun = false →
      pathExists c.dstFS (prevDstOf c p) = true →
      ∀ t, (t = SrcTree.file m ∨ t = SrcTree.link m tgt ∨ t = SrcTree.dir m cs) →
        bVisit c p t =
          ⟨(if c.verbose then
              [Effect.put (PLine.lnL (dstPathOfB c p) (prevDstOf c p))] else []) ++
            [Effect.hardlink (prevDstOf c p) (dstPathOfB c p)], none⟩) := by
  constructor
  · intro h
    exact ⟨bVisit_noMatch_file c p m h, bVisit_noMatch_link c p m tgt h,
      bVisit_noMatch_dir c p m cs h⟩
  · intro h hd he t ht
    have hb := bVisit_match c p m cs tgt h
    have hl := lnBranch_real_exists c p hd he
    rcases ht with rfl | rfl | rfl
    · rw [hb.2.1, hl]
    · rw [hb.2.2, hl]
    · rw [hb.1, hl]

/-- Witness for C1: a matched file becomes exactly one hard link. -/
theorem claim_C1_match_decision_witness :
    bVisit cLinked (pjoin ['s'] ['f']) (SrcTree.file ⟨5, 1, 2⟩) =
      ⟨[Effect.hardlink (prevDstOf cLinked (pjoin ['s'] ['f']))
          (dstPathOfB cLinked (pjoin ['s'] ['f']))], none⟩ := by
  have h := (claim_C1_match_decision cLinked (pjoin ['s'] ['f']) ⟨5, 1, 2⟩ [] []).2
    (by simp [refDecision, lstatRef, refPathOf, cLinked, refStatW, alookup, subAll,
      leadsWith, pjoin])
    rfl
    (by simp [cLinked, prevDstOf, dstPathOfB, subAll, leadsWith, pjoin, pathExists,
      resolveExists, alookup])
    (SrcTree.file ⟨5, 1, 2⟩) (Or.inl rfl)
  rw [h]
  simp [cLinked]

/-- C2: a MATCH on a directory short-circuits the whole subtree -- the
result is the `ln` branch alone, independent of the children, so no
descendant is inspected, copied or linked; on NO-MATCH the walker is
invoked on the children, and this recursion also happens in dry-run mode
(where the per-entry effects reduce to the decision line). -/
theorem claim_C2_dir_shortcircuit (c : BCfg) (p : Path) (m : Meta)
    (cs : List (List Char × SrcTree)) :
    (refDecision c p m.ino = Except.ok true →
      bVisit c p (SrcTree.dir m cs) = lnBranch c p ∧
      (∀ cs2, bVisit c p (SrcTree.dir m cs) = bVisit c p (SrcTree.dir m cs2)) ∧
      (c.dryrun = true →
        bVisit c p (SrcTree.dir m cs) =
          ⟨if c.verbose then
            [Effect.put (PLine.lnL (dstPathOfB c p) (prevDstOf c p))] else [], none⟩)) ∧
    (refDecision c p m.ino = Except.ok false →
      bVisit c p (SrcTree.dir m cs) =
        VOut.seq
          ⟨(if c.verbose then [Effect.put (PLine.mkdirL (dstPathOfB c p))] else []) ++
            (if c.dryrun then [] else
              [Effect.mkdir (dstPathOfB c p), Effect.copystat p (dstPathOfB c p),
               Effect.chownE (dstPathOfB c p) m.uid m.gid]), none⟩
          (bWalk c p cs)) := by
  constructor
  · intro h
    refine ⟨(bVisit_match c p m cs []  h).1, ?_, ?_⟩
    · intro cs2
      rw [(bVisit_match c p m cs [] h).1, (bVisit_match c p m cs2 [] h).1]
    · intro hd
      rw [(bVisit_match c p m cs [] h).1, lnBranch_dryrun c p hd]
  · intro h
    rw [bVisit, h]

/-- Witness for C2: in dry-run mode a NO-MATCH directory still walks its
children, printing their decision lines. -/
theorem claim_C2_dir_shortcircuit_witness :
    bVisit cDry ['s'] (SrcTree.dir ⟨1, 0, 0⟩ [(['f'], SrcTree.file ⟨2, 0, 0⟩)]) =
      VOut.seq ⟨[Effect.put (PLine.mkdirL (dstPathOfB cDry ['s']))], none⟩
        (bWalk cDry ['s'] [(['f'], SrcTree.file ⟨2, 0, 0⟩)]) := by
  have h := (claim_C2_dir_shortcircuit cDry ['s'] ⟨1, 0, 0⟩
    [(['f'], SrcTree.file ⟨2, 0, 0⟩)]).2
    (by simp [refDecision, lstatRef, refPathOf, cDry, alookup, subAll, leadsWith])
  rw [h]
  simp [cDry]

/-- C8: every symlink copied by either replicator writes at the
destination exactly the target string read from the source link (and no
symlink effect with a different target is emitted). -/
theorem claim_C8_symlink_roundtrip (ic : ICfg) (c : BCfg) (p : Path) (m : Meta)
    (tgt : Path) :
    (ic.dryrun = false →
      Effect.symlink tgt (dstPathOfI ic p) ∈ (iVisit ic p (SrcTree.link m tgt)).out ∧
      (∀ t2 d2, Effect.symlink t2 d2 ∈ (iVisit ic p (SrcTree.link m tgt)).out → t2 = tgt)) ∧
    (c.dryrun = false → refDecision c p m.ino = Except.ok false →
      Effect.symlink tgt (dstPathOfB c p) ∈ (bVisit c p (SrcTree.link m tgt)).out ∧
      (∀ t2 d2, Effect.symlink t2 d2 ∈ (bVisit c p (SrcTree.link m tgt)).out → t2 = tgt)) := by
  constructor
  · intro hd
    rw [iVisit]
    constructor
    · cases hv : ic.verbose <;> simp [hd, hv]
    · intro t2 d2 hmem
      cases hv : ic.verbose <;> simp [hd, hv] at hmem <;> exact hmem.1
  · intro hd hnm
    rw [bVisit_noMatch_link c p m tgt hnm, iVisit]
    constructor
    · cases hv : c.verbose <;> simp [hd, hv, toICfg, dstPathOfI, dstPathOfB]
    · intro t2 d2 hmem
      cases hv : c.verbose <;> simp [hd, hv, toICfg] at hmem <;> exact hmem.1

/-- Witness for C8: a copied symlink carries its source target verbatim. -/
theorem claim_C8_symlink_roundtrip_witness :
    Effect.symlink ['t'] (dstPathOfI ⟨['s'], ['d'], false, false⟩ (pjoin ['s'] ['l']))
      ∈ (iVisit ⟨['s'], ['d'], false, false⟩ (pjoin ['s'] ['l'])
          (SrcTree.link ⟨3, 0, 0⟩ ['t'])).out :=
  ((claim_C8_symlink_roundtrip ⟨['s'], ['d'], false, false⟩ cDry (pjoin ['s'] ['l'])
    ⟨3, 0, 0⟩ ['t']).1 rfl).1

/-- Counterexample to C3: for the source path `/s/s` (root `/s`, suffix
`/s`), `re.sub` also rewrites the second occurrence of the root, so the
computed reference path is `/r/r`, not the root-swapped `/r/s`. -/
theorem claim_C3_counterexample :
    refPathOf cRecur (cRecur.src ++ ['/', 's']) ≠ cRecur.old ++ ['/', 's'] := by
  have : refPathOf cRecur (cRecur.src ++ ['/', 's']) = ['/', 'r', '/', 'r'] := by
    simp [refPathOf, cRecur, subAll, leadsWith]
  rw [this]
  simp [cRecur]

/-- C3 as amended: the reference and destination paths equal the
root-swapped source path whenever the source root does not recur in the
relative suffix, and the previous-destination path swaps the snapshot name
whenever the current snapshot name occurs in the destination path exactly
once, at a known position.  (This is the most `re.sub` on a literal,
metacharacter-free pattern guarantees; the unrestricted claim fails, see
the counterexample.) -/
theorem claim_C3_amended_mappings (c : BCfg) (suffix : Path) (a b : List Char) :
    (c.src ≠ [] → hasOcc c.src suffix = false →
      refPathOf c (c.src ++ suffix) = c.old ++ suffix ∧
      dstPathOfB c (c.src ++ suffix) = c.dst ++ suffix) ∧
    (c.curr ≠ [] → hasOcc c.curr b = false →
      (∀ i, i < a.length → leadsWith c.curr (List.drop i (a ++ c.curr ++ b)) = false) →
      dstPathOfB c (c.src ++ suffix) = a ++ c.curr ++ b →
      prevDstOf c (c.src ++ suffix) = a ++ c.prev ++ b) := by
  constructor
  · intro hp hocc
    exact ⟨subAll_head_swap c.src c.old suffix hp hocc,
      subAll_head_swap c.src c.dst suffix hp hocc⟩
  · intro hp hoccb ha hdst
    rw [prevDstOf, hdst]
    exact subAll_mid_swap c.curr c.prev a b hp hoccb ha

/-- Witness for the amended C3: for source path `/s/x` the reference path
is `/r/x`, the destination path `/d/x`, and the previous-destination path
`/d/y`. -/
theorem claim_C3_amended_mappings_witness :
    refPathOf cClean (cClean.src ++ ['/', 'x']) = cClean.old ++ ['/', 'x'] ∧
    prevDstOf cClean (cClean.src ++ ['/', 'x']) = ['/', 'd', '/'] ++ cClean.prev ++ [] := by
  constructor
  · exact ((claim_C3_amended_mappings cClean ['/', 'x'] [] []).1 (by simp [cClean])
      (by simp [cClean, hasOcc, leadsWith])).1
  · refine (claim_C3_amended_mappings cClean ['/', 'x'] ['/', 'd', '/'] []).2
      (by simp [cClean]) (by simp [cClean, hasOcc, leadsWith]) ?_ ?_
    · intro i hi
      have h3 : i < 3 := by simpa using hi
      interval_cases i <;> simp [cClean, leadsWith]
    · exact ((claim_C3_amended_mappings cClean ['/', 'x'] [] []).1 (by simp [cClean])
        (by simp [cClean, hasOcc, leadsWith])).2

theorem insertStr_ne_nil (x : List Char) (ys : List (List Char)) :
    insertStr x ys ≠ [] := by
  cases ys with
  | nil => simp [insertStr]
  | cons y ys2 =>
    rw [insertStr]
    split <;> simp

theorem sortStrs_eq_nil_iff (l : List (List Char)) : sortStrs l = [] ↔ l = [] := by
  cases l with
  | nil => simp [sortStrs]
  | cons x xs =>
    rw [sortStrs]
    simp [insertStr_ne_nil]

theorem doHost_ok_filter_ne_nil (w : World) (srcdb dstdb : Path) (v d : Bool)
    (h : List Char × List (List Char))
    (hok : (doHost w srcdb dstdb v d h).res = RRes.ok) :
    h.snd.filter okayEntry ≠ [] := by
  intro hnil
  rw [doHost] at hok
  simp only [hnil, sortStrs] at hok
  exact RRes.noConfusion hok

theorem doHosts_ok_all (w : World) (srcdb dstdb : Path) (v d : Bool) :
    ∀ hs, (doHosts w srcdb dstdb v d hs).res = RRes.ok →
      ∀ h, h ∈ hs → h.snd.filter okayEntry ≠ [] := by
  intro hs
  induction hs with
  | nil => intro _ h hmem; exact absurd hmem (List.not_mem_nil h)
  | cons h0 hs2 ih =>
    intro hok h hmem
    rw [doHosts] at hok
    unfold RunOut.seq at hok
    rcases hres : (doHost w srcdb dstdb v d h0).res with _ | n | _ <;> rw [hres] at hok
    · rcases List.mem_cons.mp hmem with rfl | hmem2
      · exact doHost_ok_filter_ne_nil w srcdb dstdb v d h hres
      · exact ih (by simpa using hok) h hmem2
    · simp [hres] at hok
    · simp [hres] at hok

/-- With the backup database present, `copybackupdb` is the host loop
followed by the dotfile pass. -/
theorem copybackupdb_res_eq (w : World) (sb db : Path) (v d : Bool)
    (h : w.srcdbExists = true) :
    copybackupdb w sb db v d =
      RunOut.seq (doHosts w (pjoin sb backupsName) (pjoin db backupsName) v d w.hosts)
        ⟨dotfilesPart w sb db, RRes.ok⟩ := by
  rw [copybackupdb, if_pos (by simp [h])]

/-- C10: `copybackupdb` completes normally only if every host directory
still has a snapshot after excluding `Latest` and `*.inProgress`; a host
whose filtered list is empty makes `entries[0]` raise an unhandled
`IndexError` rather than exiting cleanly. -/
theorem claim_C10_empty_host (w : World) (sb db : Path) (v d : Bool) :
    ((copybackupdb w sb db v d).res = RRes.ok →
      ∀ h, h ∈ w.hosts → h.snd.filter okayEntry ≠ []) ∧
    (w.srcdbExists = true →
      ∀ hh hs, w.hosts = hh :: hs → hh.snd.filter okayEntry = [] →
        (copybackupdb w sb db v d).res = RRes.indexError) := by
  constructor
  · intro hok
    rcases hsrc : w.srcdbExists with _ | _
    · rw [copybackupdb, if_neg (by simp [hsrc])] at hok
      exact absurd hok (by simp)
    · apply doHosts_ok_all w (pjoin sb backupsName) (pjoin db backupsName) v d w.hosts
      rw [copybackupdb_res_eq w sb db v d hsrc] at hok
      rcases hres : (doHosts w (pjoin sb backupsName) (pjoin db backupsName) v d
          w.hosts).res with _ | n | _
      · rfl
      · simp [RunOut.seq, hres] at hok
      · simp [RunOut.seq, hres] at hok
  · intro hsrc hh hs hhosts hempty
    rw [copybackupdb_res_eq w sb db v d hsrc, hhosts]
    have hhost : (doHost w (pjoin sb backupsName) (pjoin db backupsName) v d hh).res =
        RRes.indexError := by
      rw [doHost]
      simp only [hempty, sortStrs]
    rw [doHosts.eq_def]
    simp [RunOut.seq, hhost]

/-- Witness for C10: that world ends in an unhandled `IndexError`. -/
theorem claim_C10_empty_host_witness :
    (copybackupdb wLatestOnly ['/'] ['/'] false false).res = RRes.indexError :=
  (claim_C10_empty_host wLatestOnly ['/'] ['/'] false false).2 rfl (['h'], [latestName]) []
    rfl (by simp [okayEntry])

/-- C5 (code bug): even with the dry-run flag set, `copybackupdb`
unconditionally recreates the `Latest` symlink at the end of the host loop
(timecopy.py lines 326-330 have no dry-run guard), so a dry run does
mutate the destination volume. -/
theorem claim_C5_dryrun_latest_symlink :
    Effect.symlink ['A']
        (pjoin (pjoin (pjoin ['/', 't'] backupsName) ['h']) latestName)
      ∈ (copybackupdb wOneSnap ['/', 's'] ['/', 't'] false true).out := by
  rw [copybackupdb_res_eq wOneSnap ['/', 's'] ['/', 't'] false true rfl]
  simp [doHosts, doHost, wOneSnap, sortStrs, insertStr, okayEntry, latestName,
    inProgSuffix, trailsWith, leadsWith, RunOut.seq, liftV, lastOf, mkdest, treeOf,
    alookup, rootKids, rootMeta, iWalk, laterLoop, pathExists, resolveExists,
    lexistsB, dotfilesPart, macMatch]

/-- Counterexample to C7: invoked with the required arguments missing, the
program exits with status 2 (`sys.exit(2)` after "Missing required
arguments"), not with status 1 as claimed. -/
theorem claim_C7_counterexample :
    mainExit argsNone envAllOk wEmpty ≠ 1 ∧ mainExit argsNone envAllOk wEmpty = 2 := by
  constructor
  · intro h
    rw [mainExit] at h
    simp [argsNone] at h
  · rw [mainExit]
    simp [argsNone]

/-- C7 as amended: exit status 0 on success (and for `--help`); 2 for
usage errors, including invalid options and missing or extra positional
arguments, and for unrecoverable filesystem errors met while walking the
tree; 1 when a given source/target path does not exist or is not a
directory, or when the run is interrupted. -/
theorem claim_C7_amended_exit_status (a : Args) (env : MainEnv) (w : World)
    (c : BCfg) (d : Path) (n : List Char) (t : SrcTree)
    (rest : List (List Char × SrcTree)) (e : Errno) (k : Nat) :
    (a.getoptError = true → mainExit a env w = 2) ∧
    (a.getoptError = false → a.wantsHelp = true → mainExit a env w = 0) ∧
    (a.getoptError = false → a.wantsHelp = false → a.posArgs.length ≠ 2 →
      mainExit a env w = 2) ∧
    (a.getoptError = false → a.wantsHelp = false → a.posArgs.length = 2 →
      (env.srcExists = false ∨ env.srcIsDir = false ∨ env.dstExists = false ∨
        env.dstIsDir = false) →
      mainExit a env w = 1) ∧
    (a.getoptError = false → a.wantsHelp = false → a.posArgs.length = 2 →
      env = ⟨true, true, true, true, true⟩ → mainExit a env w = 1) ∧
    (a.getoptError = false → a.wantsHelp = false → a.posArgs.length = 2 →
      env = envAllOk →
      (copybackupdb w (a.posArgs.headD []) ((a.posArgs.drop 1).headD [])
          a.verboseFlag a.dryrunFlag).res = RRes.ok →
      mainExit a env w = 0) ∧
    (a.getoptError = false → a.wantsHelp = false → a.posArgs.length = 2 →
      env = envAllOk →
      (copybackupdb w (a.posArgs.headD []) ((a.posArgs.drop 1).headD [])
          a.verboseFlag a.dryrunFlag).res = RRes.exitc k →
      mainExit a env w = k) ∧
    ((bVisit c (pjoin d n) t).err = some (VErr.os e) →
      (bWalk c d ((n, t) :: rest)).err = some (VErr.exitc 2)) := by
  refine ⟨?_, ?_, ?_, ?_, ?_, ?_, ?_, ?_⟩
  · intro h1
    rw [mainExit]
    simp [h1]
  · intro h1 h2
    rw [mainExit]
    simp [h1, h2]
  · intro h1 h2 h3
    rw [mainExit]
    simp [h1, h2, h3]
  · intro h1 h2 h3 h4
    rw [mainExit]
    rcases h4 with h | h | h | h <;> simp [h1, h2, h3, h]
  · intro h1 h2 h3 h4
    subst h4
    rw [mainExit]
    simp [h1, h2, h3]
  · intro h1 h2 h3 h4 h5
    subst h4
    rw [mainExit]
    rw [if_neg (by simp [h1]), if_neg (by simp [h2]), if_neg (by simp [h3])]
    rw [if_neg (by simp [envAllOk]), if_neg (by simp [envAllOk])]
    rw [if_neg (by simp [envAllOk]), if_neg (by simp [envAllOk])]
    rw [if_neg (by simp [envAllOk]), h5]
  · intro h1 h2 h3 h4 h5
    subst h4
    rw [mainExit]
    rw [if_neg (by simp [h1]), if_neg (by simp [h2]), if_neg (by simp [h3])]
    rw [if_neg (by simp [envAllOk]), if_neg (by simp [envAllOk])]
    rw [if_neg (by simp [envAllOk]), if_neg (by simp [envAllOk])]
    rw [if_neg (by simp [envAllOk]), h5]
  · exact bWalk_os_exit c d n t rest e

/-- Witness for the amended C7: a valid empty run exits 0, and missing
arguments exit 2. -/
theorem claim_C7_amended_exit_status_witness :
    mainExit argsTwo envAllOk wEmpty = 0 ∧ mainExit argsNone envAllOk wEmpty = 2 := by
  constructor
  · exact (claim_C7_amended_exit_status argsTwo envAllOk wEmpty cDry [] [] SrcTree.other
      [] Errno.enoent 0).2.2.2.2.2.1 rfl rfl rfl rfl
      (by rw [copybackupdb_res_eq wEmpty (argsTwo.posArgs.headD [])
            ((argsTwo.posArgs.drop 1).headD []) argsTwo.verboseFlag argsTwo.dryrunFlag rfl]
          simp [doHosts, RunOut.seq])
  · exact (claim_C7_amended_exit_status argsNone envAllOk wEmpty cDry [] [] SrcTree.other
      [] Errno.enoent 0).2.2.1 rfl rfl (by simp [argsNone])

end Timecopy
